import Mathlib

/-!
Shallow embedding of the computation core of `sistema_tribunal`:
the index-lookup, interval-accumulation, compound-inflation, threshold-lookup
and rounding routines of `modulos/actualizacion.py`, `modulos/calculadora_lrt.py`,
`modulos/calculadora_despidos.py` and `utils/funciones_comunes.py`.

Dates are embedded as a year/month/day record compared through their
Rata Die day number (the civil-calendar day count also used by Python's
`datetime.date`); monetary and index values are embedded as rationals.
Fallible steps (pandas `iloc` on an empty frame, a missing column access)
return `Except`, mirroring the places where the Python code could raise.
-/

/-- Calendar date, as Python's `datetime.date`: year, month, day. -/
structure Fecha where
  anio : Int
  mes : Int
  dia : Int
deriving DecidableEq, Repr

/-- Day number of a civil date (days since 1970-01-01, Rata Die shifted);
this is the standard days-from-civil algorithm, which on valid dates agrees
with Python's `date.toordinal` up to a constant shift, so date comparison
and date subtraction in the source are embedded as comparison and
subtraction of `toRD` values. -/
def Fecha.toRD (f : Fecha) : Int :=
  let y : Int := if f.mes ≤ 2 then f.anio - 1 else f.anio
  let era : Int := Int.fdiv y 400
  let yoe : Int := y - era * 400
  let mp : Int := Int.fmod (f.mes + 9) 12
  let doy : Int := Int.fdiv (153 * mp + 2) 5 + f.dia - 1
  let doe : Int := yoe * 365 + Int.fdiv yoe 4 - Int.fdiv yoe 100 + doy
  era * 146097 + doe - 719468

/-- Python `max(a, b)` on dates: returns `a` when `a >= b`. -/
def fmax (a b : Fecha) : Fecha := if b.toRD ≤ a.toRD then a else b

/-- Python `min(a, b)` on dates: returns `a` when `a <= b`. -/
def fmin (a b : Fecha) : Fecha := if a.toRD ≤ b.toRD then a else b

/-- Python `(b - a).days` on dates. -/
def diasEntre (a b : Fecha) : Int := b.toRD - a.toRD

/-- Python `d.replace(day=1)`: first day of the month of `d`
(used to normalise query dates in the IPC accumulators). -/
def Fecha.floorMonth (f : Fecha) : Fecha := ⟨f.anio, f.mes, 1⟩

/-- Embeds `days_in_month` of `utils/funciones_comunes.py`: number of days of
the month of `d`, computed as the day difference between the first day of the
next month and the first day of this month. -/
def days_in_month (d : Fecha) : Int :=
  (if d.mes = 12 then Fecha.toRD ⟨d.anio + 1, 1, 1⟩
   else Fecha.toRD ⟨d.anio, d.mes + 1, 1⟩) - Fecha.toRD ⟨d.anio, d.mes, 1⟩

/-- Embeds `redondear` of `utils/funciones_comunes.py`:
`Decimal.quantize(Decimal(0.01), rounding=ROUND_HALF_UP)`, i.e. rounding to
two decimal places with ties going away from zero. -/
def redondear (x : ℚ) : ℚ :=
  if 0 ≤ x then (⌊x * 100 + 1/2⌋ : ℚ) / 100
  else -((⌊(-x) * 100 + 1/2⌋ : ℚ) / 100)

/-- Pandas `df.iloc[0]` / `get_ultimo_dato` on a data frame embedded as a
list of rows: the first row, raising (`IndexError` resp. `TypeError` on the
`None` returned by `get_ultimo_dato`) when the frame is empty. -/
def headE {α : Type} (l : List α) : Except String α :=
  match l with
  | [] => .error "IndexError: empty frame"
  | a :: _ => .ok a

/-- Pandas `df.iloc[-1]` on a data frame embedded as a list of rows:
the last row, raising when the frame is empty. -/
def lastE {α : Type} (l : List α) : Except String α :=
  match l.getLast? with
  | none => .error "IndexError: empty frame"
  | some a => .ok a

/-- One row of a RIPTE index series: a period date and the index value
(column `indice_ripte` in `actualizacion.py` / `calculadora_despidos.py`,
column `ripte` in `calculadora_lrt.py`). -/
structure RipteEntry where
  fecha : Fecha
  valor : ℚ
deriving DecidableEq, Repr

/-- Embeds lines 53-57 (and identically 60-64) of `actualizar_ripte` in
`modulos/actualizacion.py`: filter the series to entries with date at or
before the query date; if the filtered frame is non-empty take its first row
(`get_ultimo_dato`, i.e. `iloc[0]`: the table is ordered most-recent-first);
otherwise fall back to `get_ultimo_dato` of the WHOLE table, i.e. its first
row. -/
def lookupRipteAct (tbl : List RipteEntry) (q : Fecha) : Except String ℚ :=
  match tbl.filter (fun e => decide (e.fecha.toRD ≤ q.toRD)) with
  | e :: _ => .ok e.valor
  | [] => (headE tbl).map RipteEntry.valor

/-- Embeds the body of `actualizar_ripte` in `modulos/actualizacion.py`
(the `try` block): empty table gives `(monto_base, 1.0, 0.0)`; otherwise the
RIPTE coefficient is final lookup over initial lookup, guarded to `1.0` when
the initial value is not positive, and the pure-interest rate is applied on
top of the adjusted amount. Returns `(total, coeficiente, interes_puro)`. -/
def actualizar_ripteActE (monto_base : ℚ) (fecha_inicial fecha_final : Fecha)
    (df_ripte : List RipteEntry) (tasa_pura : ℚ) : Except String (ℚ × ℚ × ℚ) := do
  if df_ripte.isEmpty then
    return (monto_base, 1, 0)
  let ripte_pmi ← lookupRipteAct df_ripte fecha_inicial
  let ripte_final ← lookupRipteAct df_ripte fecha_final
  -- Python divides only under the `ripte_pmi > 0` guard, so no ZeroDivisionError
  let coeficiente : ℚ := if ripte_pmi > 0 then ripte_final / ripte_pmi else 1
  let ripte_actualizado := monto_base * coeficiente
  let interes_puro := ripte_actualizado * (tasa_pura / 100)
  return (ripte_actualizado + interes_puro, coeficiente, interes_puro)

/-- The `except` clause of `actualizar_ripte` in `modulos/actualizacion.py`:
any exception inside the body yields `(monto_base, 1.0, 0.0)`. -/
def actualizar_ripteAct (monto_base : ℚ) (fecha_inicial fecha_final : Fecha)
    (df_ripte : List RipteEntry) (tasa_pura : ℚ) : ℚ × ℚ × ℚ :=
  match actualizar_ripteActE monto_base fecha_inicial fecha_final df_ripte tasa_pura with
  | .ok v => v
  | .error _ => (monto_base, 1, 0)

/-- Embeds lines 307-321 of `DataManager.get_ripte_coeficiente` in
`modulos/calculadora_lrt.py`: first row of the filtered frame when non-empty,
otherwise `iloc[-1]` of the whole table (the oldest entry, as the table is
ordered most-recent-first). Only called on a non-empty table; the value on an
empty table is irrelevant junk. -/
def lookupRipteLrt (tbl : List RipteEntry) (q : Fecha) : ℚ :=
  match tbl.filter (fun e => decide (e.fecha.toRD ≤ q.toRD)) with
  | e :: _ => e.valor
  | [] =>
    match tbl.getLast? with
    | some e => e.valor
    | none => 0

/-- Embeds `DataManager.get_ripte_coeficiente` of `modulos/calculadora_lrt.py`:
returns `(coeficiente, ripte_pmi, ripte_final)`, with `(1.0, 0.0, 0.0)` on an
empty table and a neutral coefficient when the initial index is not
positive. -/
def get_ripte_coeficiente (fecha_pmi fecha_final : Fecha)
    (ripte_data : List RipteEntry) : ℚ × ℚ × ℚ :=
  if ripte_data.isEmpty then (1, 0, 0)
  else
    let ripte_pmi := lookupRipteLrt ripte_data fecha_pmi
    let ripte_final := lookupRipteLrt ripte_data fecha_final
    let coeficiente : ℚ := if ripte_pmi > 0 then ripte_final / ripte_pmi else 1
    (coeficiente, ripte_pmi, ripte_final)

/-- Embeds lines 117-129 of `actualizar_ripte` in
`modulos/calculadora_despidos.py`: same lookup as the LRT one, with the
explicit `iloc[-1]` oldest-entry fallback. -/
def lookupRipteDesp (tbl : List RipteEntry) (q : Fecha) : ℚ :=
  match tbl.filter (fun e => decide (e.fecha.toRD ≤ q.toRD)) with
  | e :: _ => e.valor
  | [] =>
    match tbl.getLast? with
    | some e => e.valor
    | none => 0

/-- Embeds the `try` body of `actualizar_ripte` in
`modulos/calculadora_despidos.py`: RIPTE adjustment plus a fixed 3% yearly
pure interest prorated by `(fecha_final - fecha_inicial).days / 365`. -/
def actualizar_ripteDesp (monto_base : ℚ) (fecha_inicial fecha_final : Fecha)
    (df_ripte : List RipteEntry) : ℚ :=
  if df_ripte.isEmpty then monto_base
  else
    let ripte_pmi := lookupRipteDesp df_ripte fecha_inicial
    let ripte_final := lookupRipteDesp df_ripte fecha_final
    let coeficiente : ℚ := if ripte_pmi > 0 then ripte_final / ripte_pmi else 1
    let ripte_actualizado := monto_base * coeficiente
    let dias := diasEntre fecha_inicial fecha_final
    let factor_dias : ℚ := (dias : ℚ) / 365
    let interes_puro := ripte_actualizado * (3/100) * factor_dias
    ripte_actualizado + interes_puro

/-- One row of the interest-rate table of `modulos/actualizacion.py`
(`actualizar_tasa`): the resolved `Desde`/`desde`, `Hasta`/`hasta` and
`Valor`/`valor`/`tasa` cell of the row, `none` when the cell is absent or
`NaN` (the code checks both column spellings and `pd.isna` and treats all
those cases by skipping, so only the resolved optional value matters). -/
structure TasaRow where
  desde : Option Fecha
  hasta : Option Fecha
  valor : Option ℚ
deriving DecidableEq, Repr

/-- Per-row contribution of the loop body of `actualizar_tasa` in
`modulos/actualizacion.py`: zero when a field is missing or the intersection
with the query range is empty, otherwise `valor * (dias_interseccion / 30)`. -/
def tasaAporte (fecha_pmi fecha_final : Fecha) (r : TasaRow) : ℚ :=
  match r.desde, r.hasta, r.valor with
  | some d, some h, some v =>
    let inicio := fmax fecha_pmi d
    let fin := fmin fecha_final h
    if inicio.toRD ≤ fin.toRD then v * (((diasEntre inicio fin + 1 : Int) : ℚ) / 30)
    else 0
  | some d, some h, none =>
    -- row reached the intersection test but has no rate cell: `continue`
    let _ := d; let _ := h; 0
  | _, _, _ => 0

/-- Embeds `actualizar_tasa` of `modulos/actualizacion.py`: iterates the rows
accumulating `total_aporte_pct`, then returns
`(monto_base * (1 + total/100), total)`. The `try` body cannot raise (every
cell access is guarded by column/`isna` checks), so the `except` branch is
dead and the function is embedded directly. -/
def actualizar_tasaAct (monto_base : ℚ) (fecha_pmi fecha_final : Fecha)
    (df_tasa : List TasaRow) : ℚ × ℚ :=
  if df_tasa.isEmpty then (monto_base, 0)
  else
    let total_aporte_pct :=
      df_tasa.foldl (fun acc r => acc + tasaAporte fecha_pmi fecha_final r) 0
    (monto_base * (1 + total_aporte_pct / 100), total_aporte_pct)

/-- One row of the normalized rate table of `modulos/calculadora_lrt.py`
(`DataManager.tasa_data`): optional `desde`, `hasta`, `fecha` date cells and
optional `tasa`, `valor` rate cells (a cell is `none` when `NaN`). -/
structure TasaRowL where
  desde : Option Fecha
  hasta : Option Fecha
  fecha : Option Fecha
  tasa : Option ℚ
  valor : Option ℚ
deriving DecidableEq, Repr

/-- The rate table of `modulos/calculadora_lrt.py` together with which
columns exist in the frame (`"desde" in self.tasa_data.columns` etc.), since
`calcular_tasa_activa` branches on column existence and an access to a
missing column raises `KeyError`. -/
structure TasaTableL where
  hasDesde : Bool
  hasHasta : Bool
  hasFecha : Bool
  hasTasa : Bool
  hasValor : Bool
  rows : List TasaRowL
deriving DecidableEq, Repr

/-- Lines 335-338 of `calcular_tasa_activa`: take `row["desde"]` when the
column exists and the cell is not `NaN`, otherwise `row["fecha"]` — which
raises `KeyError` when the `fecha` column does not exist, and which lets a
`NaT` flow into the subsequent `date(...)`/comparison arithmetic (which
raises) when the cell is missing. -/
def getDesdeLrt (t : TasaTableL) (r : TasaRowL) : Except String Fecha :=
  if t.hasDesde ∧ r.desde.isSome then
    match r.desde with
    | some d => .ok d
    | none => .error "unreachable"
  else if t.hasFecha then
    match r.fecha with
    | some f => .ok f
    | none => .error "TypeError: NaT in date arithmetic"
  else .error "KeyError: fecha"

/-- Lines 340-343 of `calcular_tasa_activa`: take `row["hasta"]` when present
and not `NaN`, otherwise the last day of the month of `fecha_desde`
(`date(y, m, days_in_month(fecha_desde))`). -/
def getHastaLrt (t : TasaTableL) (r : TasaRowL) (fecha_desde : Fecha) : Fecha :=
  if t.hasHasta ∧ r.hasta.isSome then
    match r.hasta with
    | some h => h
    | none => fecha_desde
  else ⟨fecha_desde.anio, fecha_desde.mes, days_in_month fecha_desde⟩

/-- Lines 356-361 of `calcular_tasa_activa`: the monthly rate of a row,
`row["tasa"]` first, then `row["valor"]`, `none` (Python `continue`) when
neither is available. -/
def getRateLrt (t : TasaTableL) (r : TasaRowL) : Option ℚ :=
  if t.hasTasa ∧ r.tasa.isSome then r.tasa
  else if t.hasValor ∧ r.valor.isSome then r.valor
  else none

/-- The loop of `calcular_tasa_activa` in `modulos/calculadora_lrt.py`,
accumulating `total_aporte_pct` over the rows; an exception raised at some
row propagates (the function has no `try`). -/
def tasaLrtLoop (t : TasaTableL) (fecha_pmi fecha_final : Fecha) :
    List TasaRowL → ℚ → Except String ℚ
  | [], acc => .ok acc
  | r :: rest, acc => do
    let fecha_desde ← getDesdeLrt t r
    let fecha_hasta := getHastaLrt t r fecha_desde
    let inicio := fmax fecha_pmi fecha_desde
    let fin := fmin fecha_final fecha_hasta
    let acc1 :=
      if inicio.toRD ≤ fin.toRD then
        match getRateLrt t r with
        | some v => acc + v * (((diasEntre inicio fin + 1 : Int) : ℚ) / 30)
        | none => acc
      else acc
    tasaLrtLoop t fecha_pmi fecha_final rest acc1

/-- Embeds `DataManager.calcular_tasa_activa` of `modulos/calculadora_lrt.py`:
`(0.0, capital_base)` on an empty table, otherwise the accumulated percentage
and the updated capital; `Except.error` models the uncaught exceptions the
Python code can raise on malformed tables. -/
def calcular_tasa_activaE (fecha_pmi fecha_final : Fecha) (capital_base : ℚ)
    (t : TasaTableL) : Except String (ℚ × ℚ) := do
  if t.rows.isEmpty then
    return (0, capital_base)
  let total_aporte_pct ← tasaLrtLoop t fecha_pmi fecha_final t.rows 0
  return (total_aporte_pct, capital_base * (1 + total_aporte_pct / 100))

/-- One row of the IPC table of `modulos/actualizacion.py` and
`modulos/calculadora_despidos.py`: `periodo` (parsed with
`errors=coerce`, hence possibly `NaT` = `none`) and the monthly percentage
change `variacion_mensual` (possibly `NaN` = `none`). -/
structure IpcRow where
  periodo : Option Fecha
  variacion_mensual : Option ℚ
deriving DecidableEq, Repr

/-- The period filter of `actualizar_ipc` / `calcular_ipc_acumulado`:
rows whose `periodo` lies between the day-1-normalized query dates
(a `NaT` period fails both pandas comparisons and is excluded). -/
def ipcFiltro (fecha_pmi fecha_final : Fecha) (rows : List IpcRow) : List IpcRow :=
  rows.filter (fun r =>
    match r.periodo with
    | some p =>
      decide ((fecha_pmi.floorMonth).toRD ≤ p.toRD ∧ p.toRD ≤ (fecha_final.floorMonth).toRD)
    | none => false)

/-- The compound-factor loop shared by the three IPC accumulators:
multiply `(1 + variacion/100)` over the rows whose change is not `NaN`. -/
def ipcFactor (rows : List IpcRow) : ℚ :=
  rows.foldl
    (fun acc r =>
      match r.variacion_mensual with
      | some v => acc * (1 + v / 100)
      | none => acc) 1

/-- Embeds `actualizar_ipc` of `modulos/actualizacion.py` (the `try` body,
which cannot raise): returns `(total, inflacion_acumulada, interes_puro)`,
with `(monto_base, 0.0, 0.0)` when the table or the filtered period set is
empty. -/
def actualizar_ipcAct (monto_base : ℚ) (fecha_pmi fecha_final : Fecha)
    (df_ipc : List IpcRow) (tasa_pura : ℚ) : ℚ × ℚ × ℚ :=
  if df_ipc.isEmpty then (monto_base, 0, 0)
  else
    let ipc_periodo := ipcFiltro fecha_pmi fecha_final df_ipc
    if ipc_periodo.isEmpty then (monto_base, 0, 0)
    else
      let factor_acumulado := ipcFactor ipc_periodo
      let inflacion_acumulada := (factor_acumulado - 1) * 100
      let ipc_actualizado := monto_base * factor_acumulado
      let interes_puro := ipc_actualizado * (tasa_pura / 100)
      (ipc_actualizado + interes_puro, inflacion_acumulada, interes_puro)

/-- Embeds `calcular_ipc_acumulado` of `modulos/calculadora_despidos.py`
(the `try` body, which cannot raise): the accumulated percentage change. -/
def calcular_ipc_acumulado (fecha_pmi fecha_final : Fecha)
    (df_ipc : List IpcRow) : ℚ :=
  if df_ipc.isEmpty then 0
  else
    let ipc_periodo := ipcFiltro fecha_pmi fecha_final df_ipc
    if ipc_periodo.isEmpty then 0
    else (ipcFactor ipc_periodo - 1) * 100

/-- One row of the normalized IPC table of `modulos/calculadora_lrt.py`
(`DataManager.ipc_data` after `_norm_ipc`, whose `dropna` keeps only rows
with a parsed `fecha`); the loop still checks `pd.isna` on the value, so the
value stays optional. -/
structure IpcRowL where
  fecha : Fecha
  ipc : Option ℚ
deriving DecidableEq, Repr

/-- The period filter of `DataManager.calcular_inflacion`. -/
def ipcFiltroLrt (fecha_pmi fecha_final : Fecha) (rows : List IpcRowL) : List IpcRowL :=
  rows.filter (fun r =>
    decide ((fecha_pmi.floorMonth).toRD ≤ r.fecha.toRD ∧
            r.fecha.toRD ≤ (fecha_final.floorMonth).toRD))

/-- Embeds `DataManager.calcular_inflacion` of `modulos/calculadora_lrt.py`:
the accumulated percentage change over the selected periods. -/
def calcular_inflacion (fecha_pmi fecha_final : Fecha)
    (ipc_data : List IpcRowL) : ℚ :=
  if ipc_data.isEmpty then 0
  else
    let ipc_periodo := ipcFiltroLrt fecha_pmi fecha_final ipc_data
    if ipc_periodo.isEmpty then 0
    else
      let factor_acumulado :=
        ipc_periodo.foldl
          (fun acc r =>
            match r.ipc with
            | some v => acc * (1 + v / 100)
            | none => acc) 1
      (factor_acumulado - 1) * 100

/-- One row of the normalized minimum-threshold table of
`modulos/calculadora_lrt.py` (`DataManager.pisos_data` after `_norm_pisos`,
whose `dropna` keeps only rows with a parsed `desde` and a numeric `piso`):
start date, optional end date, minimum amount and citation. -/
structure PisoRow where
  desde : Fecha
  hasta : Option Fecha
  piso : ℚ
  resol : String
deriving DecidableEq, Repr

/-- The row loop of `DataManager.get_piso_minimo`: an open-ended row whose
start is at or before the query date overwrites the running candidate; a
closed row whose interval contains the query date returns immediately. -/
def pisoLoop (fecha_pmi : Fecha) : List PisoRow → Option (ℚ × String) → Option ℚ × String
  | [], cand =>
    match cand with
    | some (p, s) => (some p, s)
    | none => (none, "")
  | r :: rest, cand =>
    match r.hasta with
    | none =>
      if r.desde.toRD ≤ fecha_pmi.toRD then pisoLoop fecha_pmi rest (some (r.piso, r.resol))
      else pisoLoop fecha_pmi rest cand
    | some h =>
      if r.desde.toRD ≤ fecha_pmi.toRD ∧ fecha_pmi.toRD ≤ h.toRD then (some r.piso, r.resol)
      else pisoLoop fecha_pmi rest cand

/-- Embeds `DataManager.get_piso_minimo` of `modulos/calculadora_lrt.py`. -/
def get_piso_minimo (fecha_pmi : Fecha) (pisos_data : List PisoRow) : Option ℚ × String :=
  if pisos_data.isEmpty then (none, "")
  else pisoLoop fecha_pmi pisos_data none

/-- Specification-side definition for the compound-accumulation contract,
following the spec sentence literally: restrict to periods whose NORMALIZED
(day-of-month = 1) date falls within the raw query range `[start, end]`
inclusive, multiply `(1 + change/100)` over them, and report
`(product - 1) * 100`. To be compared with `calcular_inflacion`, which
instead normalizes the query bounds and compares the raw period dates. -/
def inflacion_specC3 (fecha_pmi fecha_final : Fecha) (rows : List IpcRowL) : ℚ :=
  (((rows.filter (fun r =>
      decide (fecha_pmi.toRD ≤ (r.fecha.floorMonth).toRD ∧
              (r.fecha.floorMonth).toRD ≤ fecha_final.toRD))).map
      (fun r => 1 + r.ipc.getD 0 / 100)).prod - 1) * 100

/-- Specification-side helper for the threshold lookup: the closed rows whose
interval `[desde, hasta]` contains the query date. -/
def pisoClosedMatches (fecha_pmi : Fecha) (rows : List PisoRow) : List PisoRow :=
  rows.filter (fun r =>
    match r.hasta with
    | some h => decide (r.desde.toRD ≤ fecha_pmi.toRD ∧ fecha_pmi.toRD ≤ h.toRD)
    | none => false)

/-- Specification-side helper for the threshold lookup: the open-ended rows
whose start date is at or before the query date. -/
def pisoOpenMatches (fecha_pmi : Fecha) (rows : List PisoRow) : List PisoRow :=
  rows.filter (fun r =>
    match r.hasta with
    | none => decide (r.desde.toRD ≤ fecha_pmi.toRD)
    | some _ => false)

/-- A RIPTE series ordered most-recent-first whose entries all lie after
the example query date `exQBefore`: 2010-01 is worth 200, 2005-01 is worth
100 (so the earliest entry of the table has value 100). -/
def exRipteDesc : List RipteEntry :=
  [⟨⟨2010, 1, 1⟩, 200⟩, ⟨⟨2005, 1, 1⟩, 100⟩]

/-- A query date preceding every entry of `exRipteDesc`. -/
def exQBefore : Fecha := ⟨2000, 1, 1⟩

/-- Specification-side per-row contribution of the interval-overlap
accumulator contract: `rate * (overlap_days / 30)` where
`overlap_days = min(end, interval_end) - max(start, interval_start) + 1`
when positive, else zero; a row is the triple
`(interval_start, interval_end, rate)`. -/
def aporteC2 (fecha_pmi fecha_final : Fecha) (x : Fecha × Fecha × ℚ) : ℚ :=
  if (fmax fecha_pmi x.1).toRD ≤ (fmin fecha_final x.2.1).toRD then
    x.2.2 * (((diasEntre (fmax fecha_pmi x.1) (fmin fecha_final x.2.1) + 1 : Int) : ℚ) / 30)
  else 0

/-- Specification-side compound accumulation, as amended by the C3
counterexample: restrict to the periods (rows `(period, change)`) whose RAW
date lies between the day-1-NORMALIZED query bounds, multiply
`(1 + change/100)` over them and report `(product - 1) * 100`. -/
def inflacionAmendedC3 (fecha_pmi fecha_final : Fecha) (cl : List (Fecha × ℚ)) : ℚ :=
  (((cl.filter (fun x =>
      decide ((fecha_pmi.floorMonth).toRD ≤ x.1.toRD ∧
              x.1.toRD ≤ (fecha_final.floorMonth).toRD))).map
      (fun x => 1 + x.2 / 100)).prod - 1) * 100

/-- Claim C1: the nearest-prior RIPTE lookup is claimed to return, for a query
date preceding every entry, the value of the EARLIEST entry, in all three
updaters. This theorem evaluates the code at the failing input: on the
most-recent-first table `exRipteDesc` (earliest entry value 100) and the
query date `exQBefore` preceding every entry, the LRT and despidos lookups
return 100 as claimed but the `actualizacion.py` lookup falls back to
`get_ultimo_dato` of the whole table and returns 200, the MOST RECENT value;
consequently `actualizar_ripte` yields a neutral coefficient 1 instead of the
claimed ratio. -/
theorem claim_C1_fallback_divergence :
    lookupRipteAct exRipteDesc exQBefore = Except.ok 200 ∧
    lookupRipteLrt exRipteDesc exQBefore = 100 ∧
    lookupRipteDesp exRipteDesc exQBefore = 100 ∧
    Fecha.toRD exQBefore < Fecha.toRD ⟨2005, 1, 1⟩ ∧
    Fecha.toRD ⟨2005, 1, 1⟩ < Fecha.toRD ⟨2010, 1, 1⟩ ∧
    actualizar_ripteAct 100 exQBefore ⟨2012, 1, 1⟩ exRipteDesc 0 = (100, 1, 0) ∧
    (200 : ℚ) ≠ 100 := by
  refine ⟨rfl, rfl, rfl, by decide, by decide, ?_, by norm_num⟩
  simp +decide [actualizar_ripteAct, actualizar_ripteActE, lookupRipteAct, exRipteDesc, exQBefore,
    Fecha.toRD, List.filter, headE, Except.map, bind, Except.bind]

/-- Claim C10: on an empty reference table every updater returns the base
amount with a neutral adjustment and does not apply the pure-interest rate:
`actualizar_ripte` gives `(base, 1.0, 0.0)`, `actualizar_tasa` gives
`(base, 0.0)`, `actualizar_ipc` gives `(base, 0.0, 0.0)` and
`get_ripte_coeficiente` gives `(1.0, 0.0, 0.0)`. -/
theorem claim_C10_empty_table_neutral (monto tasa_pura : ℚ) (fi ff : Fecha) :
    actualizar_ripteAct monto fi ff [] tasa_pura = (monto, 1, 0) ∧
    actualizar_tasaAct monto fi ff [] = (monto, 0) ∧
    actualizar_ipcAct monto fi ff [] tasa_pura = (monto, 0, 0) ∧
    get_ripte_coeficiente fi ff [] = (1, 0, 0) :=
  ⟨rfl, rfl, rfl, rfl⟩

/-- Claim C9 counterexample: `DataManager.calcular_tasa_activa` is not total
over malformed tables. On a non-empty rate table that has `hasta` and `valor`
columns but neither a `desde` nor a `fecha` column (which `_norm_tasa` leaves
untouched, since it only builds `fecha` when `desde` exists), the first loop
iteration evaluates `row["fecha"]` and raises an uncaught `KeyError`. -/
theorem claim_C9_counterexample :
    calcular_tasa_activaE ⟨2024, 1, 1⟩ ⟨2024, 6, 30⟩ 100
      ⟨false, true, false, false, true, [⟨none, some ⟨2024, 1, 31⟩, none, none, some 5⟩]⟩ =
      Except.error "KeyError: fecha" := rfl

/-- Claim C3 counterexample: the accumulator does NOT select the periods
whose day-1-normalized date lies in the raw query range `[start, end]`.
With the single period 2024-02-01 (change 10%) and the query range
2024-02-15 .. 2024-03-20, the normalized period date 2024-02-01 does not lie
in the range, so the claimed selection is empty and the claimed result is 0%;
the code instead normalizes the query bounds to 2024-02-01 .. 2024-03-01,
selects the period, and returns 10%. -/
theorem claim_C3_counterexample :
    calcular_inflacion ⟨2024, 2, 15⟩ ⟨2024, 3, 20⟩ [⟨⟨2024, 2, 1⟩, some 10⟩] = 10 ∧
    inflacion_specC3 ⟨2024, 2, 15⟩ ⟨2024, 3, 20⟩ [⟨⟨2024, 2, 1⟩, some 10⟩] = 0 ∧
    (10 : ℚ) ≠ 0 := by
  refine ⟨?_, ?_, by norm_num⟩
  · simp +decide [calcular_inflacion, ipcFiltroLrt, Fecha.floorMonth, Fecha.toRD, List.filter]
  · simp +decide [inflacion_specC3, Fecha.floorMonth, Fecha.toRD, List.filter]

/-- Accumulating a sum in a left fold equals adding the sum of the mapped
list (the shape of the `total_aporte_pct` loops). -/
theorem foldl_add_map {α : Type} (f : α → ℚ) : ∀ (l : List α) (a : ℚ),
    l.foldl (fun acc r => acc + f r) a = a + (l.map f).sum := by
  intro l
  induction l with
  | nil => intro a; simp
  | cons x t ih => intro a; simp [List.foldl_cons, ih, add_assoc]

/-- Accumulating a product in a left fold equals multiplying by the product
of the mapped list (the shape of the `factor_acumulado` loops). -/
theorem foldl_mul_map {α : Type} (f : α → ℚ) : ∀ (l : List α) (a : ℚ),
    l.foldl (fun acc r => acc * f r) a = a * (l.map f).prod := by
  intro l
  induction l with
  | nil => intro a; simp
  | cons x t ih => intro a; simp [List.foldl_cons, ih, mul_assoc]

/-- Claim C8: compound accumulation over an empty matching period set is the
identity: whenever the period filter selects nothing (in particular on an
empty table), the IPC accumulators report 0% and `actualizar_ipc` returns the
base amount unchanged with no interest applied. -/
theorem claim_C8_empty_match_identity (monto tasa_pura : ℚ) (fi ff : Fecha)
    (rowsA : List IpcRow) (rowsL : List IpcRowL)
    (hA : ipcFiltro fi ff rowsA = []) (hL : ipcFiltroLrt fi ff rowsL = []) :
    actualizar_ipcAct monto fi ff rowsA tasa_pura = (monto, 0, 0) ∧
    calcular_inflacion fi ff rowsL = 0 ∧
    calcular_ipc_acumulado fi ff rowsA = 0 := by
  refine ⟨?_, ?_, ?_⟩ <;>
    simp [actualizar_ipcAct, calcular_inflacion, calcular_ipc_acumulado, hA, hL]

/-- Witness for C8: a concrete table whose only period (January 2020)
precedes the normalized query range March-May 2021. -/
theorem claim_C8_empty_match_identity_witness :
    actualizar_ipcAct 100 ⟨2021, 3, 10⟩ ⟨2021, 5, 2⟩ [⟨some ⟨2020, 1, 1⟩, some 5⟩] 3
      = (100, 0, 0) ∧
    calcular_inflacion ⟨2021, 3, 10⟩ ⟨2021, 5, 2⟩ [⟨⟨2020, 1, 1⟩, some 5⟩] = 0 ∧
    calcular_ipc_acumulado ⟨2021, 3, 10⟩ ⟨2021, 5, 2⟩ [⟨some ⟨2020, 1, 1⟩, some 5⟩] = 0 :=
  claim_C8_empty_match_identity 100 3 ⟨2021, 3, 10⟩ ⟨2021, 5, 2⟩
    [⟨some ⟨2020, 1, 1⟩, some 5⟩] [⟨⟨2020, 1, 1⟩, some 5⟩] (by decide) (by decide)

/-- The actualizacion.py RIPTE lookup always succeeds on a non-empty table
(the fallback takes the first row of the whole table). -/
theorem lookupRipteAct_isOk (tbl : List RipteEntry) (q : Fecha) (h : tbl ≠ []) :
    ∃ v, lookupRipteAct tbl q = Except.ok v := by
  unfold lookupRipteAct
  cases hf : tbl.filter (fun e => decide (e.fecha.toRD ≤ q.toRD)) with
  | cons e t => exact ⟨e.valor, rfl⟩
  | nil =>
    cases tbl with
    | nil => exact absurd rfl h
    | cons a t => exact ⟨a.valor, rfl⟩

/-- Claim C6: when the base (initial-date) RIPTE lookup yields zero, every
updater takes the guarded branch and uses the neutral coefficient 1.0 instead
of dividing, so the adjusted amount before pure interest equals the base
amount: `actualizar_ripte` (actualizacion.py) returns the base plus only the
pure-interest term with coefficient 1, `get_ripte_coeficiente` returns
coefficient 1, and `actualizar_ripte` (calculadora_despidos.py) returns the
base plus only the prorated 3% term. -/
theorem claim_C6_zero_base_neutral (monto tasa_pura : ℚ) (fi ff : Fecha)
    (tbl : List RipteEntry)
    (hAct : lookupRipteAct tbl fi = Except.ok 0)
    (hLrt : lookupRipteLrt tbl fi = 0)
    (hDesp : lookupRipteDesp tbl fi = 0)
    (hne : tbl ≠ []) :
    actualizar_ripteAct monto fi ff tbl tasa_pura
      = (monto + monto * (tasa_pura / 100), 1, monto * (tasa_pura / 100)) ∧
    (get_ripte_coeficiente fi ff tbl).1 = 1 ∧
    actualizar_ripteDesp monto fi ff tbl
      = monto + monto * (3 / 100) * (((diasEntre fi ff : Int) : ℚ) / 365) := by
  refine ⟨?_, ?_, ?_⟩
  · obtain ⟨v, hv⟩ := lookupRipteAct_isOk tbl ff hne
    simp [actualizar_ripteAct, actualizar_ripteActE, List.isEmpty_iff, hne, hAct, hv,
      bind, Except.bind, pure, Except.pure]
  · simp [get_ripte_coeficiente, List.isEmpty_iff, hne, hLrt]
  · simp [actualizar_ripteDesp, List.isEmpty_iff, hne, hDesp]

/-- Witness for C6: a table whose only entry has index value 0. -/
theorem claim_C6_zero_base_neutral_witness :
    actualizar_ripteAct 100 ⟨2021, 1, 1⟩ ⟨2021, 1, 11⟩ [⟨⟨2020, 1, 1⟩, 0⟩] 3
      = (100 + 100 * (3 / 100), 1, 100 * (3 / 100)) ∧
    (get_ripte_coeficiente ⟨2021, 1, 1⟩ ⟨2021, 1, 11⟩ [⟨⟨2020, 1, 1⟩, 0⟩]).1 = 1 ∧
    actualizar_ripteDesp 100 ⟨2021, 1, 1⟩ ⟨2021, 1, 11⟩ [⟨⟨2020, 1, 1⟩, 0⟩]
      = 100 + 100 * (3 / 100) * (((diasEntre ⟨2021, 1, 1⟩ ⟨2021, 1, 11⟩ : Int) : ℚ) / 365) :=
  claim_C6_zero_base_neutral 100 3 ⟨2021, 1, 1⟩ ⟨2021, 1, 11⟩ [⟨⟨2020, 1, 1⟩, 0⟩]
    (by rfl) (by rfl) (by rfl) (by decide)

/-- On a strictly most-recent-first table, filtering to the entries at or
before the date of a member entry puts exactly that entry first: every entry
listed before it has a strictly later date and is filtered out. -/
theorem filter_le_at_point (tbl : List RipteEntry) (e : RipteEntry)
    (hs : tbl.Pairwise (fun a b => b.fecha.toRD < a.fecha.toRD))
    (he : e ∈ tbl) :
    ∃ l, tbl.filter (fun x => decide (x.fecha.toRD ≤ e.fecha.toRD)) = e :: l := by
  induction tbl with
  | nil => cases he
  | cons a t ih =>
    rcases List.mem_cons.mp he with rfl | hmem
    · exact ⟨t.filter (fun x => decide (x.fecha.toRD ≤ e.fecha.toRD)),
        by simp [List.filter_cons]⟩
    · have hpc := List.pairwise_cons.mp hs
      have hlt : e.fecha.toRD < a.fecha.toRD := hpc.1 e hmem
      obtain ⟨l, hl⟩ := ih hpc.2 hmem
      refine ⟨l, ?_⟩
      rw [List.filter_cons, if_neg (by simp [Int.not_le.mpr hlt]), hl]

/-- Claim C7: the nearest-prior lookup is idempotent at table points: on a
series with distinct entry dates ordered most-recent-first, querying at the
date of an entry returns exactly that entry's value, in all three RIPTE
lookups. -/
theorem claim_C7_idempotent_at_points (tbl : List RipteEntry) (e : RipteEntry)
    (hs : tbl.Pairwise (fun a b => b.fecha.toRD < a.fecha.toRD))
    (he : e ∈ tbl) :
    lookupRipteLrt tbl e.fecha = e.valor ∧
    lookupRipteDesp tbl e.fecha = e.valor ∧
    lookupRipteAct tbl e.fecha = Except.ok e.valor := by
  obtain ⟨l, hl⟩ := filter_le_at_point tbl e hs he
  refine ⟨?_, ?_, ?_⟩ <;> simp [lookupRipteLrt, lookupRipteDesp, lookupRipteAct, hl]

/-- Witness for C7: querying `exRipteDesc` at its 2005-01-01 entry returns
that entry's value 100. -/
theorem claim_C7_idempotent_at_points_witness :
    lookupRipteLrt exRipteDesc ⟨2005, 1, 1⟩ = 100 ∧
    lookupRipteDesp exRipteDesc ⟨2005, 1, 1⟩ = 100 ∧
    lookupRipteAct exRipteDesc ⟨2005, 1, 1⟩ = Except.ok 100 :=
  claim_C7_idempotent_at_points exRipteDesc ⟨⟨2005, 1, 1⟩, 100⟩ (by decide) (by decide)

/-- The per-row contribution computed by `actualizar_tasa` on a fully
populated row equals the specification contribution `aporteC2`. -/
theorem tasaAporte_mk (fi ff : Fecha) (x : Fecha × Fecha × ℚ) :
    tasaAporte fi ff ⟨some x.1, some x.2.1, some x.2.2⟩ = aporteC2 fi ff x := rfl

/-- On a table of fully populated `(desde, hasta, valor)` rows,
`actualizar_tasa` returns the accumulated percentage
`sum of rate * (overlap_days/30)` and the correspondingly updated amount. -/
theorem actualizar_tasaAct_clean (monto : ℚ) (fi ff : Fecha)
    (tbl : List (Fecha × Fecha × ℚ)) :
    actualizar_tasaAct monto fi ff (tbl.map (fun x => ⟨some x.1, some x.2.1, some x.2.2⟩))
      = (monto * (1 + (tbl.map (aporteC2 fi ff)).sum / 100), (tbl.map (aporteC2 fi ff)).sum) := by
  cases tbl with
  | nil => simp [actualizar_tasaAct]
  | cons y t =>
    have h1 : ((y :: t).map (fun x => (⟨some x.1, some x.2.1, some x.2.2⟩ : TasaRow))).foldl
        (fun acc r => acc + tasaAporte fi ff r) 0 = ((y :: t).map (aporteC2 fi ff)).sum := by
      rw [List.foldl_map]
      simp only [tasaAporte_mk]
      rw [foldl_add_map (aporteC2 fi ff), zero_add]
    simp only [actualizar_tasaAct]
    rw [if_neg (by simp), h1]

/-- The loop of `calcular_tasa_activa`, on a table whose `desde`, `hasta` and
`tasa` columns exist and whose rows are fully populated, accumulates exactly
the specification contributions. -/
theorem tasaLrtLoop_clean (T : TasaTableL) (hD : T.hasDesde = true) (hH : T.hasHasta = true)
    (hT : T.hasTasa = true) (fi ff : Fecha) :
    ∀ (l : List (Fecha × Fecha × ℚ)) (acc : ℚ),
    tasaLrtLoop T fi ff
        (l.map (fun x => ⟨some x.1, some x.2.1, some x.1, some x.2.2, none⟩)) acc
      = Except.ok (acc + (l.map (aporteC2 fi ff)).sum) := by
  intro l
  induction l with
  | nil => intro acc; simp [tasaLrtLoop]
  | cons x t ih =>
    intro acc
    simp only [List.map_cons, tasaLrtLoop, getDesdeLrt, getHastaLrt, getRateLrt, hD, hH, hT,
      Option.isSome_some, and_self, if_true, bind, Except.bind, ih, List.map_cons,
      List.sum_cons]
    simp only [aporteC2]
    split_ifs with hc
    · rw [Except.ok.injEq]; ring
    · rw [Except.ok.injEq]; ring

/-- On a well-formed table, `calcular_tasa_activa` returns the accumulated
percentage and the updated capital. -/
theorem calcular_tasa_activaE_clean (capital : ℚ) (fi ff : Fecha)
    (tbl : List (Fecha × Fecha × ℚ)) :
    calcular_tasa_activaE fi ff capital
        ⟨true, true, true, true, false,
          tbl.map (fun x => ⟨some x.1, some x.2.1, some x.1, some x.2.2, none⟩)⟩
      = Except.ok ((tbl.map (aporteC2 fi ff)).sum,
          capital * (1 + (tbl.map (aporteC2 fi ff)).sum / 100)) := by
  cases tbl with
  | nil => simp [calcular_tasa_activaE, pure, Except.pure]
  | cons y t =>
    have hlp := tasaLrtLoop_clean
      ⟨true, true, true, true, false,
        ((y :: t).map (fun x => ⟨some x.1, some x.2.1, some x.1, some x.2.2, none⟩))⟩
      rfl rfl rfl fi ff (y :: t) 0
    simp only [calcular_tasa_activaE, bind, Except.bind, pure, Except.pure]
    rw [if_neg (by simp)]
    rw [hlp, zero_add]

/-- The spec example: a single rate row covering January 2024 and a query
range inside that month contributes `rate * (days_inclusive / 30)`. -/
theorem tasaAct_january (monto : ℚ) (s e : Fecha)
    (hs : Fecha.toRD ⟨2024, 1, 1⟩ ≤ s.toRD)
    (hse : s.toRD ≤ e.toRD)
    (he : e.toRD ≤ Fecha.toRD ⟨2024, 1, 31⟩) :
    (actualizar_tasaAct monto s e
        [⟨some ⟨2024, 1, 1⟩, some ⟨2024, 1, 31⟩, some (3982/1000)⟩]).2
      = 3982/1000 * (((diasEntre s e + 1 : Int) : ℚ) / 30) := by
  simp [actualizar_tasaAct, tasaAporte, fmax, fmin, hs, hse, he, diasEntre]

/-- Claim C2: both interval-overlap accumulators return the sum, over all
rows, of `rate * (overlap_days/30)` where
`overlap_days = min(end, interval_end) - max(start, interval_start) + 1` when
positive and the row contributes zero otherwise (`aporteC2`); and on the
single-row January-2024 table with rate 3.982 a query range of `N` days
inside January yields `3.982 * (N/30)`. -/
theorem claim_C2_interval_overlap (monto capital : ℚ) (fi ff : Fecha)
    (tbl : List (Fecha × Fecha × ℚ)) (s e : Fecha)
    (_hfe : fi.toRD ≤ ff.toRD)
    (hs : Fecha.toRD ⟨2024, 1, 1⟩ ≤ s.toRD)
    (hse : s.toRD ≤ e.toRD)
    (he : e.toRD ≤ Fecha.toRD ⟨2024, 1, 31⟩) :
    actualizar_tasaAct monto fi ff (tbl.map (fun x => ⟨some x.1, some x.2.1, some x.2.2⟩))
      = (monto * (1 + (tbl.map (aporteC2 fi ff)).sum / 100), (tbl.map (aporteC2 fi ff)).sum) ∧
    calcular_tasa_activaE fi ff capital
        ⟨true, true, true, true, false,
          tbl.map (fun x => ⟨some x.1, some x.2.1, some x.1, some x.2.2, none⟩)⟩
      = Except.ok ((tbl.map (aporteC2 fi ff)).sum,
          capital * (1 + (tbl.map (aporteC2 fi ff)).sum / 100)) ∧
    (actualizar_tasaAct monto s e
        [⟨some ⟨2024, 1, 1⟩, some ⟨2024, 1, 31⟩, some (3982/1000)⟩]).2
      = 3982/1000 * (((diasEntre s e + 1 : Int) : ℚ) / 30) :=
  ⟨actualizar_tasaAct_clean monto fi ff tbl,
   calcular_tasa_activaE_clean capital fi ff tbl,
   tasaAct_january monto s e hs hse he⟩

/-- Witness for C2: a one-row March-2024 table and a 10-day query range
inside January 2024. -/
theorem claim_C2_interval_overlap_witness :
    actualizar_tasaAct 100 ⟨2024, 3, 1⟩ ⟨2024, 3, 31⟩
        ([(⟨2024, 3, 1⟩, ⟨2024, 3, 31⟩, (3 : ℚ))].map
          (fun x => ⟨some x.1, some x.2.1, some x.2.2⟩))
      = (100 * (1 + ([(⟨2024, 3, 1⟩, ⟨2024, 3, 31⟩, (3 : ℚ))].map
            (aporteC2 ⟨2024, 3, 1⟩ ⟨2024, 3, 31⟩)).sum / 100),
          ([(⟨2024, 3, 1⟩, ⟨2024, 3, 31⟩, (3 : ℚ))].map
            (aporteC2 ⟨2024, 3, 1⟩ ⟨2024, 3, 31⟩)).sum) ∧
    calcular_tasa_activaE ⟨2024, 3, 1⟩ ⟨2024, 3, 31⟩ 200
        ⟨true, true, true, true, false,
          [(⟨2024, 3, 1⟩, ⟨2024, 3, 31⟩, (3 : ℚ))].map
            (fun x => ⟨some x.1, some x.2.1, some x.1, some x.2.2, none⟩)⟩
      = Except.ok (([(⟨2024, 3, 1⟩, ⟨2024, 3, 31⟩, (3 : ℚ))].map
            (aporteC2 ⟨2024, 3, 1⟩ ⟨2024, 3, 31⟩)).sum,
          200 * (1 + ([(⟨2024, 3, 1⟩, ⟨2024, 3, 31⟩, (3 : ℚ))].map
            (aporteC2 ⟨2024, 3, 1⟩ ⟨2024, 3, 31⟩)).sum / 100)) ∧
    (actualizar_tasaAct 100 ⟨2024, 1, 10⟩ ⟨2024, 1, 19⟩
        [⟨some ⟨2024, 1, 1⟩, some ⟨2024, 1, 31⟩, some (3982/1000)⟩]).2
      = 3982/1000 * (((diasEntre ⟨2024, 1, 10⟩ ⟨2024, 1, 19⟩ + 1 : Int) : ℚ) / 30) :=
  claim_C2_interval_overlap 100 200 ⟨2024, 3, 1⟩ ⟨2024, 3, 31⟩
    [(⟨2024, 3, 1⟩, ⟨2024, 3, 31⟩, (3 : ℚ))] ⟨2024, 1, 10⟩ ⟨2024, 1, 19⟩
    (by decide) (by decide) (by decide) (by decide)

/-- Filtering a fully populated IPC table (actualizacion.py row shape)
commutes with building the rows from `(period, change)` pairs. -/
theorem ipcFiltro_map_clean (fi ff : Fecha) (cl : List (Fecha × ℚ)) :
    ipcFiltro fi ff (cl.map (fun x => ⟨some x.1, some x.2⟩))
      = (cl.filter (fun x =>
          decide ((fi.floorMonth).toRD ≤ x.1.toRD ∧
                  x.1.toRD ≤ (ff.floorMonth).toRD))).map (fun x => ⟨some x.1, some x.2⟩) := by
  induction cl with
  | nil => rfl
  | cons y t ih =>
    simp only [List.map_cons, ipcFiltro, List.filter_cons] at *
    by_cases hc : (fi.floorMonth).toRD ≤ y.1.toRD ∧ y.1.toRD ≤ (ff.floorMonth).toRD
    · simp only [Bool.decide_and] at ih ⊢
      simp [hc, ih]
    · simp only [Bool.decide_and] at ih ⊢
      simp [hc, ih]

/-- Filtering a fully populated IPC table (calculadora_lrt.py row shape)
commutes with building the rows from `(period, change)` pairs. -/
theorem ipcFiltroLrt_map_clean (fi ff : Fecha) (cl : List (Fecha × ℚ)) :
    ipcFiltroLrt fi ff (cl.map (fun x => ⟨x.1, some x.2⟩))
      = (cl.filter (fun x =>
          decide ((fi.floorMonth).toRD ≤ x.1.toRD ∧
                  x.1.toRD ≤ (ff.floorMonth).toRD))).map (fun x => ⟨x.1, some x.2⟩) := by
  induction cl with
  | nil => rfl
  | cons y t ih =>
    simp only [List.map_cons, ipcFiltroLrt, List.filter_cons] at *
    by_cases hc : (fi.floorMonth).toRD ≤ y.1.toRD ∧ y.1.toRD ≤ (ff.floorMonth).toRD
    · simp only [Bool.decide_and] at ih ⊢
      simp [hc, ih]
    · simp only [Bool.decide_and] at ih ⊢
      simp [hc, ih]

/-- The compound factor loop over fully populated rows is the product of
`(1 + change/100)`. -/
theorem ipcFactor_map_clean (cl : List (Fecha × ℚ)) :
    ipcFactor (cl.map (fun x => ⟨some x.1, some x.2⟩))
      = (cl.map (fun x => 1 + x.2 / 100)).prod := by
  unfold ipcFactor
  rw [List.foldl_map]
  have h := foldl_mul_map (fun (x : Fecha × ℚ) => 1 + x.2 / 100) cl 1
  rw [one_mul] at h
  exact h

/-- The compound factor loop of `calcular_inflacion` over fully populated
rows is the product of `(1 + change/100)`. -/
theorem ipcFactorLrt_map_clean (cl : List (Fecha × ℚ)) :
    List.foldl (fun acc (r : IpcRowL) =>
        match r.ipc with
        | some v => acc * (1 + v / 100)
        | none => acc) 1 (cl.map (fun x => ⟨x.1, some x.2⟩))
      = (cl.map (fun x => 1 + x.2 / 100)).prod := by
  rw [List.foldl_map]
  have h := foldl_mul_map (fun (x : Fecha × ℚ) => 1 + x.2 / 100) cl 1
  rw [one_mul] at h
  exact h

/-- The LRT inflation accumulator on a fully populated table matches the
amended compound-accumulation formula. -/
theorem calcular_inflacion_clean (fi ff : Fecha) (cl : List (Fecha × ℚ)) :
    calcular_inflacion fi ff (cl.map (fun x => ⟨x.1, some x.2⟩))
      = inflacionAmendedC3 fi ff cl := by
  rcases cl with _ | ⟨y, t⟩
  · simp [calcular_inflacion, inflacionAmendedC3]
  · simp only [calcular_inflacion]
    rw [if_neg (by simp)]
    rw [ipcFiltroLrt_map_clean]
    rcases hF : (y :: t).filter (fun x =>
        decide ((fi.floorMonth).toRD ≤ x.1.toRD ∧ x.1.toRD ≤ (ff.floorMonth).toRD))
      with _ | ⟨z, u⟩
    · simp only [inflacionAmendedC3]
      rw [hF]
      norm_num
    · simp only [inflacionAmendedC3]
      rw [hF]
      rw [if_neg (by simp)]
      rw [ipcFactorLrt_map_clean]

/-- The despidos IPC accumulator on a fully populated table matches the
amended compound-accumulation formula. -/
theorem calcular_ipc_acumulado_clean (fi ff : Fecha) (cl : List (Fecha × ℚ)) :
    calcular_ipc_acumulado fi ff (cl.map (fun x => ⟨some x.1, some x.2⟩))
      = inflacionAmendedC3 fi ff cl := by
  rcases cl with _ | ⟨y, t⟩
  · simp [calcular_ipc_acumulado, inflacionAmendedC3]
  · simp only [calcular_ipc_acumulado]
    rw [if_neg (by simp)]
    rw [ipcFiltro_map_clean]
    rcases hF : (y :: t).filter (fun x =>
        decide ((fi.floorMonth).toRD ≤ x.1.toRD ∧ x.1.toRD ≤ (ff.floorMonth).toRD))
      with _ | ⟨z, u⟩
    · simp only [inflacionAmendedC3]
      rw [hF]
      norm_num
    · simp only [inflacionAmendedC3]
      rw [hF]
      rw [if_neg (by simp)]
      rw [ipcFactor_map_clean]

/-- The inflation percentage reported by `actualizar_ipc` on a fully
populated table matches the amended compound-accumulation formula. -/
theorem actualizar_ipcAct_inflacion (monto tasa_pura : ℚ) (fi ff : Fecha)
    (cl : List (Fecha × ℚ)) :
    (actualizar_ipcAct monto fi ff (cl.map (fun x => ⟨some x.1, some x.2⟩)) tasa_pura).2.1
      = inflacionAmendedC3 fi ff cl := by
  rcases cl with _ | ⟨y, t⟩
  · simp [actualizar_ipcAct, inflacionAmendedC3]
  · simp only [actualizar_ipcAct]
    rw [if_neg (by simp)]
    rw [ipcFiltro_map_clean]
    rcases hF : (y :: t).filter (fun x =>
        decide ((fi.floorMonth).toRD ≤ x.1.toRD ∧ x.1.toRD ≤ (ff.floorMonth).toRD))
      with _ | ⟨z, u⟩
    · simp only [inflacionAmendedC3]
      rw [hF]
      norm_num
    · simp only [inflacionAmendedC3]
      rw [hF]
      rw [if_neg (by simp)]
      rw [ipcFactor_map_clean]

/-- Claim C3 as amended by the counterexample: the three compound monthly
accumulators select exactly the periods whose RAW date lies within
[start normalized to day 1, end normalized to day 1] inclusive (the query
bounds are normalized, not the period dates), multiply `(1 + change/100)`
across them and return `(product - 1) * 100`. -/
theorem claim_C3_amended (monto tasa_pura : ℚ) (fi ff : Fecha) (cl : List (Fecha × ℚ)) :
    calcular_inflacion fi ff (cl.map (fun x => ⟨x.1, some x.2⟩))
      = inflacionAmendedC3 fi ff cl ∧
    (actualizar_ipcAct monto fi ff (cl.map (fun x => ⟨some x.1, some x.2⟩)) tasa_pura).2.1
      = inflacionAmendedC3 fi ff cl ∧
    calcular_ipc_acumulado fi ff (cl.map (fun x => ⟨some x.1, some x.2⟩))
      = inflacionAmendedC3 fi ff cl :=
  ⟨calcular_inflacion_clean fi ff cl,
   actualizar_ipcAct_inflacion monto tasa_pura fi ff cl,
   calcular_ipc_acumulado_clean fi ff cl⟩

/-- Resolving the start date of a rate row succeeds whenever the row has a
non-null `desde` cell under an existing `desde` column or a non-null `fecha`
cell under an existing `fecha` column. -/
theorem getDesdeLrt_isOk (T : TasaTableL) (r : TasaRowL)
    (h : (T.hasDesde = true ∧ r.desde ≠ none) ∨ (T.hasFecha = true ∧ r.fecha ≠ none)) :
    ∃ d, getDesdeLrt T r = Except.ok d := by
  unfold getDesdeLrt
  rcases h with ⟨hD, hd⟩ | ⟨hF, hf⟩
  · rcases hr : r.desde with _ | d
    · exact absurd hr hd
    · exact ⟨d, by simp [hD, hr]⟩
  · by_cases hds : T.hasDesde = true ∧ r.desde.isSome = true
    · rcases hr : r.desde with _ | d
      · rw [hr] at hds; simp at hds
      · exact ⟨d, by simp [hds.1, hr]⟩
    · rcases hr : r.fecha with _ | f
      · exact absurd hr hf
      · refine ⟨f, ?_⟩
        rw [if_neg (by simpa using hds)]
        simp [hF, hr]

/-- The rate loop of `calcular_tasa_activa` terminates with a value whenever
every row resolves a start date. -/
theorem tasaLrtLoop_isOk (T : TasaTableL) (fi ff : Fecha) :
    ∀ (l : List TasaRowL) (acc : ℚ),
    (∀ r ∈ l, (T.hasDesde = true ∧ r.desde ≠ none) ∨ (T.hasFecha = true ∧ r.fecha ≠ none)) →
    ∃ v, tasaLrtLoop T fi ff l acc = Except.ok v := by
  intro l
  induction l with
  | nil => intro acc _; exact ⟨acc, rfl⟩
  | cons r t ih =>
    intro acc hall
    obtain ⟨d, hd⟩ := getDesdeLrt_isOk T r (hall r (List.mem_cons_self r t))
    have ht := fun x hx => hall x (List.mem_cons_of_mem r hx)
    simp only [tasaLrtLoop, hd, bind, Except.bind]
    exact ih _ ht

/-- Claim C9 as amended by the counterexample: the RIPTE updater of
`actualizacion.py` never reaches an exception (its guards make all fallible
steps succeed), the Tasa and IPC updaters of `actualizacion.py` are total
functions by construction (no fallible step occurs in their bodies), and
`calcular_tasa_activa` of `calculadora_lrt.py` returns a value on every table
in which each row resolves a start date (a `desde` value or, failing that, a
`fecha` value); the counterexample shows it raises otherwise. -/
theorem claim_C9_amended (monto capital tasa_pura : ℚ) (fi ff : Fecha)
    (rtbl : List RipteEntry) (ttbl : List TasaRow) (itbl : List IpcRow) (T : TasaTableL)
    (hT : ∀ r ∈ T.rows,
      (T.hasDesde = true ∧ r.desde ≠ none) ∨ (T.hasFecha = true ∧ r.fecha ≠ none)) :
    (∃ v, actualizar_ripteActE monto fi ff rtbl tasa_pura = Except.ok v) ∧
    (∃ p, actualizar_tasaAct monto fi ff ttbl = p) ∧
    (∃ q_, actualizar_ipcAct monto fi ff itbl tasa_pura = q_) ∧
    (∃ w, calcular_tasa_activaE fi ff capital T = Except.ok w) := by
  refine ⟨?_, ⟨_, rfl⟩, ⟨_, rfl⟩, ?_⟩
  · rcases rtbl with _ | ⟨a, t⟩
    · exact ⟨(monto, 1, 0), rfl⟩
    · obtain ⟨v1, h1⟩ := lookupRipteAct_isOk (a :: t) fi (by simp)
      obtain ⟨v2, h2⟩ := lookupRipteAct_isOk (a :: t) ff (by simp)
      cases hE : actualizar_ripteActE monto fi ff (a :: t) tasa_pura with
      | ok v => exact ⟨v, rfl⟩
      | error msg =>
        exfalso
        simp [actualizar_ripteActE, h1, h2, bind, Except.bind, pure, Except.pure] at hE
  · rcases hrows : T.rows with _ | ⟨r, t⟩
    · exact ⟨(0, capital), by simp [calcular_tasa_activaE, hrows, pure, Except.pure]⟩
    · rw [hrows] at hT
      obtain ⟨v, hv⟩ := tasaLrtLoop_isOk T fi ff (r :: t) 0 hT
      cases hE : calcular_tasa_activaE fi ff capital T with
      | ok w => exact ⟨w, rfl⟩
      | error msg =>
        exfalso
        simp [calcular_tasa_activaE, hrows, hv, bind, Except.bind, pure, Except.pure] at hE

/-- Witness for the amended C9: a well-formed one-row rate table and the
two-entry RIPTE table. -/
theorem claim_C9_amended_witness :
    (∃ v, actualizar_ripteActE 100 ⟨2024, 1, 1⟩ ⟨2024, 6, 30⟩ exRipteDesc 3 = Except.ok v) ∧
    (∃ p, actualizar_tasaAct 100 ⟨2024, 1, 1⟩ ⟨2024, 6, 30⟩ [] = p) ∧
    (∃ q_, actualizar_ipcAct 100 ⟨2024, 1, 1⟩ ⟨2024, 6, 30⟩ [] 3 = q_) ∧
    (∃ w, calcular_tasa_activaE ⟨2024, 1, 1⟩ ⟨2024, 6, 30⟩ 100
        ⟨true, true, true, true, false,
          [⟨some ⟨2024, 1, 1⟩, some ⟨2024, 1, 31⟩, some ⟨2024, 1, 1⟩, some 5, none⟩]⟩
      = Except.ok w) :=
  claim_C9_amended 100 100 3 ⟨2024, 1, 1⟩ ⟨2024, 6, 30⟩ exRipteDesc [] []
    ⟨true, true, true, true, false,
      [⟨some ⟨2024, 1, 1⟩, some ⟨2024, 1, 31⟩, some ⟨2024, 1, 1⟩, some 5, none⟩]⟩
    (by decide)

/-- When exactly one closed row contains the query date, the threshold loop
returns that row (the loop returns at the first closed containing row,
regardless of the open-ended candidate accumulated so far). -/
theorem pisoLoop_closed_unique (q : Fecha) :
    ∀ (rows : List PisoRow) (cand : Option (ℚ × String)) (r : PisoRow),
    pisoClosedMatches q rows = [r] → pisoLoop q rows cand = (some r.piso, r.resol) := by
  intro rows
  induction rows with
  | nil => intro cand r h; simp [pisoClosedMatches] at h
  | cons a t ih =>
    intro cand r h
    rcases ha : a.hasta with _ | hdate
    · have h' : pisoClosedMatches q t = [r] := by
        simpa [pisoClosedMatches, List.filter_cons, ha] using h
      simp only [pisoLoop, ha]
      split_ifs with hc
      · exact ih _ r h'
      · exact ih _ r h'
    · simp only [pisoClosedMatches, List.filter_cons, ha] at h
      by_cases hc : a.desde.toRD ≤ q.toRD ∧ q.toRD ≤ hdate.toRD
      · rw [if_pos (by simpa using hc)] at h
        rw [List.cons.injEq] at h
        simp only [pisoLoop, ha]
        rw [if_pos hc, h.1]
      · rw [if_neg (by simpa using hc)] at h
        simp only [pisoLoop, ha]
        rw [if_neg hc]
        exact ih cand r (by simpa [pisoClosedMatches] using h)

/-- When no closed row contains the query date, the threshold loop returns
the LAST open-ended row whose start is at or before the query date, or the
incoming candidate (finally `(none, \"\")`) when there is none. -/
theorem pisoLoop_no_closed (q : Fecha) :
    ∀ (rows : List PisoRow), pisoClosedMatches q rows = [] →
    ∀ (cand : Option (ℚ × String)), pisoLoop q rows cand =
      match (pisoOpenMatches q rows).getLast? with
      | some r => (some r.piso, r.resol)
      | none =>
        match cand with
        | some pr => (some pr.1, pr.2)
        | none => (none, "") := by
  intro rows
  induction rows with
  | nil =>
    intro _ cand
    rcases cand with _ | ⟨p, s⟩ <;> rfl
  | cons a t ih =>
    intro h cand
    rcases ha : a.hasta with _ | hdate
    · have h' : pisoClosedMatches q t = [] := by
        simpa [pisoClosedMatches, List.filter_cons, ha] using h
      simp only [pisoLoop, ha]
      by_cases hc : a.desde.toRD ≤ q.toRD
      · rw [if_pos hc, ih h' (some (a.piso, a.resol))]
        have hop : pisoOpenMatches q (a :: t) = a :: pisoOpenMatches q t := by
          simp [pisoOpenMatches, List.filter_cons, ha, hc]
        rw [hop]
        rcases hex : pisoOpenMatches q t with _ | ⟨z, u⟩
        · rfl
        · rw [List.getLast?_cons_cons]
          rcases hgl : (z :: u).getLast? with _ | r
          · exact absurd (List.getLast?_eq_none_iff.mp hgl) (List.cons_ne_nil z u)
          · rfl
      · rw [if_neg hc, ih h' cand]
        have hop : pisoOpenMatches q (a :: t) = pisoOpenMatches q t := by
          simp [pisoOpenMatches, List.filter_cons, ha, hc]
        rw [hop]
    · have hnc : ¬(a.desde.toRD ≤ q.toRD ∧ q.toRD ≤ hdate.toRD) := by
        intro hc
        simp only [pisoClosedMatches, List.filter_cons, ha] at h
        rw [if_pos (by simpa using hc)] at h
        simp at h
      have h' : pisoClosedMatches q t = [] := by
        simp only [pisoClosedMatches, List.filter_cons, ha] at h
        rwa [if_neg (by simpa using hnc)] at h
      simp only [pisoLoop, ha]
      rw [if_neg hnc, ih h' cand]
      have hop : pisoOpenMatches q (a :: t) = pisoOpenMatches q t := by
        simp [pisoOpenMatches, List.filter_cons, ha]
      rw [hop]

/-- In a list sorted by ascending start date, the last element has the
largest start date. -/
theorem pairwise_le_getLast :
    ∀ (l : List PisoRow), l.Pairwise (fun a b => a.desde.toRD ≤ b.desde.toRD) →
    ∀ (r : PisoRow), l.getLast? = some r → ∀ x ∈ l, x.desde.toRD ≤ r.desde.toRD := by
  intro l
  induction l with
  | nil => intro _ r hr; simp at hr
  | cons a t ih =>
    intro hp r hr x hx
    rcases t with _ | ⟨b, u⟩
    · simp at hr
      simp at hx
      rw [hx, hr]
    · rw [List.getLast?_cons_cons] at hr
      have hpc := List.pairwise_cons.mp hp
      rcases List.mem_cons.mp hx with rfl | hx'
      · have hrmem : r ∈ b :: u := List.mem_of_mem_getLast? (Option.mem_def.mpr hr)
        exact hpc.1 r hrmem
      · exact ih hpc.2 r hr x hx'

/-- Claim C4: on a threshold table ordered by validity start, the lookup
returns the amount of the unique closed interval containing the query date
when one exists; otherwise the amount of the most recent open-ended row
starting at or before the query date; otherwise `(none, \"\")`. -/
theorem claim_C4_threshold_lookup (q : Fecha) (rows : List PisoRow)
    (hs : rows.Pairwise (fun a b => a.desde.toRD ≤ b.desde.toRD)) :
    (∀ r, pisoClosedMatches q rows = [r] →
      get_piso_minimo q rows = (some r.piso, r.resol)) ∧
    (pisoClosedMatches q rows = [] → pisoOpenMatches q rows ≠ [] →
      ∃ r ∈ rows, r.hasta = none ∧ r.desde.toRD ≤ q.toRD ∧
        (∀ x ∈ rows, x.hasta = none → x.desde.toRD ≤ q.toRD →
          x.desde.toRD ≤ r.desde.toRD) ∧
        get_piso_minimo q rows = (some r.piso, r.resol)) ∧
    (pisoClosedMatches q rows = [] → pisoOpenMatches q rows = [] →
      get_piso_minimo q rows = (none, "")) := by
  refine ⟨?_, ?_, ?_⟩
  · intro r h
    have hne : rows ≠ [] := by
      intro hnil
      rw [hnil] at h
      simp [pisoClosedMatches] at h
    unfold get_piso_minimo
    rw [if_neg (by simpa [List.isEmpty_iff] using hne)]
    exact pisoLoop_closed_unique q rows none r h
  · intro hcl hop
    rcases hgl : (pisoOpenMatches q rows).getLast? with _ | r
    · exact absurd (List.getLast?_eq_none_iff.mp hgl) hop
    · have hrmem : r ∈ pisoOpenMatches q rows :=
        List.mem_of_mem_getLast? (Option.mem_def.mpr hgl)
      have hrmem2 : r ∈ rows.filter (fun x =>
          match x.hasta with
          | none => decide (x.desde.toRD ≤ q.toRD)
          | some _ => false) := hrmem
      have hrmem' := List.mem_filter.mp hrmem2
      have hrrows : r ∈ rows := hrmem'.1
      have hpred := hrmem'.2
      rcases hh : r.hasta with _ | hd
      · rw [hh] at hpred
        have hdq : r.desde.toRD ≤ q.toRD := by simpa using hpred
        have hmax0 := pairwise_le_getLast (pisoOpenMatches q rows)
          (List.Pairwise.sublist (List.filter_sublist rows) hs) r hgl
        have hne : rows ≠ [] := by
          intro hnil
          rw [hnil] at hrrows
          cases hrrows
        refine ⟨r, hrrows, hh, hdq, ?_, ?_⟩
        · intro x hx hxh hxd
          have hxmem : x ∈ pisoOpenMatches q rows := by
            unfold pisoOpenMatches
            refine List.mem_filter.mpr ⟨hx, ?_⟩
            rw [hxh]
            simpa using hxd
          exact hmax0 x hxmem
        · unfold get_piso_minimo
          rw [if_neg (by simpa [List.isEmpty_iff] using hne)]
          rw [pisoLoop_no_closed q rows hcl none, hgl]
      · rw [hh] at hpred
        simp at hpred
  · intro hcl hop
    rcases rows with _ | ⟨a, t⟩
    · rfl
    · unfold get_piso_minimo
      rw [if_neg (by simp)]
      rw [pisoLoop_no_closed q (a :: t) hcl none, hop]
      rfl

/-- Witness for C4: a two-row table whose closed first interval contains the
query date. -/
theorem claim_C4_threshold_lookup_witness :
    get_piso_minimo ⟨2020, 6, 15⟩
      [⟨⟨2020, 1, 1⟩, some ⟨2020, 12, 31⟩, 50, "R1"⟩, ⟨⟨2021, 1, 1⟩, none, 80, "R2"⟩]
      = (some 50, "R1") :=
  (claim_C4_threshold_lookup ⟨2020, 6, 15⟩
      [⟨⟨2020, 1, 1⟩, some ⟨2020, 12, 31⟩, 50, "R1"⟩, ⟨⟨2021, 1, 1⟩, none, 80, "R2"⟩]
      (by decide)).1
    ⟨⟨2020, 1, 1⟩, some ⟨2020, 12, 31⟩, 50, "R1"⟩ (by decide)

/-- On a non-negative input, `redondear` is the floor of `x*100 + 1/2`
divided by 100. -/
theorem redondear_floor_pos (x : ℚ) (hx : 0 ≤ x) :
    redondear x = (⌊x * 100 + 1/2⌋ : ℚ) / 100 := by
  unfold redondear
  rw [if_pos hx]

example : redondear (10125 / 1000) = 1013 / 100 := by
  rw [redondear_floor_pos _ (by norm_num)]
  norm_num

example : redondear (10124 / 1000) = 1012 / 100 := by
  rw [redondear_floor_pos _ (by norm_num)]
  norm_num

/-- On a negative input, `redondear` mirrors the non-negative case
(ROUND_HALF_UP rounds magnitudes, ties away from zero). -/
theorem redondear_neg_eq (x : ℚ) (hx : x < 0) : redondear x = -redondear (-x) := by
  unfold redondear
  rw [if_neg (not_le.mpr hx), if_pos (by linarith)]

/-- The rounding error of `redondear` on a non-negative input lies in
`[-1/200, 1/200)`. -/
theorem redondear_sub_bounds (x : ℚ) (hx : 0 ≤ x) :
    -(1/200) ≤ x - redondear x ∧ x - redondear x < 1/200 := by
  rw [redondear_floor_pos x hx]
  have h1 : (⌊x * 100 + 1/2⌋ : ℚ) ≤ x * 100 + 1/2 := Int.floor_le _
  have h2 : x * 100 + 1/2 < ⌊x * 100 + 1/2⌋ + 1 := Int.lt_floor_add_one _
  constructor
  · linarith
  · linarith

/-- The rounding error of `redondear` is at most half a cent. -/
theorem redondear_sub_abs (x : ℚ) : |x - redondear x| ≤ 1/200 := by
  rcases le_or_lt 0 x with hx | hx
  · have hb := redondear_sub_bounds x hx
    rw [abs_le]
    exact ⟨hb.1, le_of_lt hb.2⟩
  · have hb := redondear_sub_bounds (-x) (by linarith)
    rw [redondear_neg_eq x hx]
    rw [show x - -redondear (-x) = -((-x) - redondear (-x)) by ring, abs_neg, abs_le]
    exact ⟨hb.1, le_of_lt hb.2⟩

/-- On a tie (error of exactly half a cent) `redondear` rounds away from
zero: the magnitude strictly grows. -/
theorem redondear_away_on_tie (x : ℚ) (htie : |x - redondear x| = 1/200) :
    |x| < |redondear x| := by
  rcases le_or_lt 0 x with hx | hx
  · have hb := redondear_sub_bounds x hx
    have hxr : x - redondear x = -(1/200) := by
      rcases (abs_eq (by norm_num : (0:ℚ) ≤ 1/200)).mp htie with h | h
      · linarith [hb.2]
      · exact h
    rw [abs_of_nonneg hx, abs_of_nonneg (by linarith : (0:ℚ) ≤ redondear x)]
    linarith
  · have hb := redondear_sub_bounds (-x) (by linarith)
    rw [redondear_neg_eq x hx] at htie ⊢
    have htie2 : |(-x) - redondear (-x)| = 1/200 := by
      rw [show (-x) - redondear (-x) = -(x - -redondear (-x)) by ring, abs_neg]
      exact htie
    have hxr : (-x) - redondear (-x) = -(1/200) := by
      rcases (abs_eq (by norm_num : (0:ℚ) ≤ 1/200)).mp htie2 with h | h
      · linarith [hb.2]
      · exact h
    rw [abs_neg, abs_of_neg hx, abs_of_nonneg (by linarith : (0:ℚ) ≤ redondear (-x))]
    linarith

/-- For a value with exactly three decimals whose third decimal digit is 5,
`redondear` rounds the magnitude up by exactly half a cent (away from zero,
not to even). -/
theorem redondear_half_digit (n : ℤ) (hn : n % 10 = 5) :
    |redondear ((n : ℚ) / 1000)| = |(n : ℚ) / 1000| + 1/200 := by
  obtain ⟨k, hk⟩ : ∃ k, n = 10 * k + 5 := ⟨n / 10, by omega⟩
  rcases le_or_lt 0 n with hpos | hneg
  · have hx : (0:ℚ) ≤ (n:ℚ)/1000 := by
      have : (0:ℚ) ≤ (n:ℚ) := by exact_mod_cast hpos
      linarith
    rw [redondear_floor_pos _ hx]
    have hfl : (n : ℚ)/1000 * 100 + 1/2 = ((k + 1 : ℤ) : ℚ) := by
      subst hk; push_cast; ring
    rw [hfl, Int.floor_intCast]
    have hk0 : (0:ℚ) ≤ ((k + 1 : ℤ) : ℚ) := by
      have : (0:ℤ) ≤ k + 1 := by omega
      exact_mod_cast this
    rw [abs_of_nonneg (by linarith : (0:ℚ) ≤ ((k + 1 : ℤ) : ℚ)/100), abs_of_nonneg hx]
    subst hk; push_cast; ring
  · have hxq : (n:ℚ) < 0 := by exact_mod_cast hneg
    have hx : (n:ℚ)/1000 < 0 := by linarith
    rw [redondear_neg_eq _ hx]
    rw [redondear_floor_pos _ (by linarith : (0:ℚ) ≤ -((n:ℚ)/1000))]
    have hfl : -((n : ℚ)/1000) * 100 + 1/2 = ((-k : ℤ) : ℚ) := by
      subst hk; push_cast; ring
    rw [hfl, Int.floor_intCast]
    have hknn : (0:ℚ) ≤ ((-k : ℤ) : ℚ) := by
      have : (0:ℤ) ≤ -k := by omega
      exact_mod_cast this
    rw [abs_neg, abs_of_nonneg (by linarith : (0:ℚ) ≤ ((-k : ℤ) : ℚ)/100), abs_of_neg hx]
    subst hk; push_cast; ring

/-- Claim C5: `redondear` rounds every value to exactly 2 decimal places
with round-half-up (commercial) rounding: the result is an integer number of
cents, at distance at most half a cent, ties rounded away from zero;
`redondear 10.125 = 10.13`, `redondear 10.124 = 10.12`, and every value
whose third decimal digit is 5 rounds away from zero. -/
theorem claim_C5_redondeo_half_up (x : ℚ) (n : ℤ) (hn : n % 10 = 5) :
    (∃ k : ℤ, redondear x = (k : ℚ) / 100) ∧
    |x - redondear x| ≤ 1 / 200 ∧
    (|x - redondear x| = 1 / 200 → |x| < |redondear x|) ∧
    redondear (10125 / 1000) = 1013 / 100 ∧
    redondear (10124 / 1000) = 1012 / 100 ∧
    |redondear ((n : ℚ) / 1000)| = |(n : ℚ) / 1000| + 1 / 200 := by
  refine ⟨?_, redondear_sub_abs x, redondear_away_on_tie x, ?_, ?_, redondear_half_digit n hn⟩
  · rcases le_or_lt 0 x with hx | hx
    · exact ⟨⌊x * 100 + 1/2⌋, redondear_floor_pos x hx⟩
    · refine ⟨-⌊(-x) * 100 + 1/2⌋, ?_⟩
      rw [redondear_neg_eq x hx, redondear_floor_pos _ (by linarith)]
      push_cast
      ring
  · rw [redondear_floor_pos _ (by norm_num)]
    norm_num
  · rw [redondear_floor_pos _ (by norm_num)]
    norm_num


/-- Witness for C5: the generic conjuncts at value 1/3 and the digit-5 rule
at 0.005. -/
theorem claim_C5_redondeo_half_up_witness :
    (∃ k : ℤ, redondear (1/3) = (k : ℚ) / 100) ∧
    |1/3 - redondear (1/3)| ≤ 1 / 200 ∧
    (|1/3 - redondear (1/3)| = 1 / 200 → |(1/3 : ℚ)| < |redondear (1/3)|) ∧
    redondear (10125 / 1000) = 1013 / 100 ∧
    redondear (10124 / 1000) = 1012 / 100 ∧
    |redondear (((5 : ℤ) : ℚ) / 1000)| = |((5 : ℤ) : ℚ) / 1000| + 1 / 200 :=
  claim_C5_redondeo_half_up (1/3) 5 (by decide)
